import Mathlib

/-!
# Verification of the SASE dashboard aggregation pipeline

Shallow embedding of `scripts/update.py`: the `processar_dados` batch
aggregation (pandas) and the dashboard's interactive recompute functions
(`aplicarFiltros`, `atualizarKPIs`, `atualizarGraficos`, `atualizarCards`,
embedded JavaScript).

Modelling conventions, written down once here:

* Numeric cell values are rationals (`ℚ`); float arithmetic on the money
  sums and ratios of this program is idealized as exact rational
  arithmetic, with the rounding steps (`Series.round`, `Number.toFixed`)
  modelled explicitly.
* Non-finite floats arising from division are modelled by `PFloat`
  (finite / NaN / +inf / -inf), because pandas division by a zero sum
  produces NaN or ±inf rather than raising.
* A missing cell (pandas NaN produced by `errors='coerce'`) is `Option`.
* `df['Ano_Mes'] = df['Data_Realizacao'].dt.to_period('M').astype(str)`:
  `astype(str)` maps a NaT period to the *string* `"NaT"`.  Hence the
  `Ano_Mes` column holds strings only and is modelled as a total
  `String`-valued function, `"NaT"` for unparsable dates.
* `groupby(...)` with the default `sort=True` emits one row per distinct
  key, keys in ascending order; `agg({'Nome_Paciente': 'count'})` counts
  the non-null patient names of the group.  Patient and payer names are
  strings in the post-normalization data model, so the count equals the
  group size.
* `sort_values(by, ascending=False)` is modelled, following pandas'
  `nargsort`, as a stable ascending argsort followed by a reversal of the
  indexer (numpy's quicksort runs as a stable insertion sort at the array
  sizes of these views).
* JavaScript object keys (`examesPosMes`) are kept in insertion order,
  the ECMAScript rule for non-index string keys, and `toFixed(2)` rounds
  to the nearest hundredth, ties toward the larger value.
-/

/-- Result of a pandas float computation: a finite rational or one of the
non-finite IEEE values that pandas division can produce. -/
inductive PFloat where
  | fin : ℚ → PFloat
  | nan : PFloat
  | inf : PFloat
  | ninf : PFloat
deriving DecidableEq

/-- Pandas/numpy scalar division of two finite floats: `0/0` is NaN and
`x/0` is ±inf for `x ≠ 0` (no exception is raised). -/
def pdiv (a b : ℚ) : PFloat :=
  if b = 0 then (if a = 0 then .nan else if 0 < a then .inf else .ninf)
  else .fin (a / b)

/-- Apply a finite-float operation; NaN and ±inf pass through, as they do
through numpy multiplication by 100 and `round`. -/
def pmap (f : ℚ → ℚ) : PFloat → PFloat
  | .fin q => .fin (f q)
  | .nan => .nan
  | .inf => .inf
  | .ninf => .ninf

/-- numpy rounding of a rational to the nearest integer, ties to even
(the rule used by `Series.round`). -/
def arredEven (q : ℚ) : ℤ :=
  if q - ⌊q⌋ < 1/2 then ⌊q⌋
  else if (1:ℚ)/2 < q - ⌊q⌋ then ⌊q⌋ + 1
  else if ⌊q⌋ % 2 = 0 then ⌊q⌋ else ⌊q⌋ + 1

/-- `Series.round(2)`: round to two decimal places, ties to even. -/
def round2 (q : ℚ) : ℚ := (arredEven (q * 100) : ℚ) / 100

/-- JavaScript `Number.prototype.toFixed(2)`: round to two decimal
places; on a tie ECMAScript picks the larger value. -/
def toFixed2 (q : ℚ) : ℚ := (⌊q * 100 + 1/2⌋ : ℚ) / 100

/-- ASCII uppercasing of a string, modelling Python `str.upper()` on the
alphabet relevant to the modality rule table. -/
def maiuscula (s : String) : String := ⟨s.data.map Char.toUpper⟩

/-- Whether `p` is a prefix of `l` (character lists). -/
def comeca : List Char → List Char → Bool
  | [], _ => true
  | _ :: _, [] => false
  | a :: as, b :: bs => a == b && comeca as bs

/-- Whether `p` occurs as a contiguous sublist of `l`; Python's
`p in s` substring test on character lists. -/
def ocorre (p : List Char) : List Char → Bool
  | [] => comeca p []
  | l@(_ :: resto) => comeca p l || ocorre p resto

/-- Python `chave in exame_upper`: substring containment. -/
def contem (pat hay : String) : Bool := ocorre pat.data hay.data

/-- The ordered substring→modality rule table of `categorizar_modalidade`
(a Python dict, iterated in insertion order). -/
def modalidades : List (String × String) :=
  [("MAMOGRAFIA", "Mamografia"),
   ("DENSITOMETRIA", "Densitometria"),
   ("ULTRASSONOGRAFIA", "Ultrassonografia"),
   ("ULTRASSOM", "Ultrassonografia"),
   ("RAIO X", "Raio X"),
   ("RAIO-X", "Raio X"),
   ("RX", "Raio X"),
   ("DOPPLER", "Doppler"),
   ("DOPPLER VASCULAR", "Doppler"),
   ("ECODOPPLER", "Doppler")]

/-- The `for chave, valor in modalidades.items(): if chave in exame_upper:
return valor` loop: first rule whose substring occurs wins. -/
def buscar : List (String × String) → String → String
  | [], _ => "Outros"
  | (chave, valor) :: resto, up => if contem chave up then valor else buscar resto up

/-- `categorizar_modalidade(exame)`: `Outros` on a missing description,
otherwise the first matching rule of the table on the uppercased text. -/
def categorizar_modalidade (exame : Option String) : String :=
  match exame with
  | none => "Outros"
  | some e => buscar modalidades (maiuscula e)

/-- A post-normalization exam record (row of the coerced DataFrame).
`dataYM` is the outcome of `pd.to_datetime(..., errors='coerce')`
followed by `.dt.to_period('M')`, kept as its canonical `YYYY-MM` string
when the date parsed and `none` (NaT) otherwise.  Patient and payer
names are strings per the data model; the six leniently parsed columns
are `Option`-valued. -/
structure ExamRecord where
  nome : String
  dataYM : Option String
  convenio : String
  exame : Option String
  valor : Option ℚ
  taxa : Option ℚ
  pctSase : Option ℚ
  pctMedico : Option ℚ
  rdf : Option ℚ
deriving DecidableEq

/-- The `Ano_Mes` column: `.dt.to_period('M').astype(str)` renders a NaT
period as the string `"NaT"`, so the column is total. -/
def Ano_Mes (r : ExamRecord) : String := r.dataYM.getD "NaT"

/-- Models `df['Mes'].notna()` applied to the `Ano_Mes`-derived column:
because `astype(str)` already turned NaT into the string `"NaT"`, the
column holds no missing value and the predicate is identically true (the
filter in the source is a no-op). -/
def mes_notna (_ : String) : Bool := true

/-- A raw data row of the spreadsheet after the column renaming, before
type coercion.  The six numeric/date cells are kept as raw text. -/
structure RawRow where
  nome : String
  data : String
  convenio : String
  exame : Option String
  valor : String
  taxa : String
  pctSase : String
  pctMedico : String
  rdf : String
deriving DecidableEq

/-- Coerce one raw row with the given lenient parsers
(`pd.to_datetime` / `pd.to_numeric` with `errors='coerce'`, which yield
null instead of failing). -/
def paraRegistro (parseData : String → Option String)
    (parseNum : String → Option ℚ) (l : RawRow) : ExamRecord :=
  { nome := l.nome
    dataYM := parseData l.data
    convenio := l.convenio
    exame := l.exame
    valor := parseNum l.valor
    taxa := parseNum l.taxa
    pctSase := parseNum l.pctSase
    pctMedico := parseNum l.pctMedico
    rdf := parseNum l.rdf }

/-- The normalization block of `processar_dados`: drop duplicate-header
rows (`Nome_Paciente == 'Nome do Paciente'`), then coerce the six
numeric/date columns leniently.  Total: no row can fail. -/
def normalizar (parseData : String → Option String)
    (parseNum : String → Option ℚ) (linhas : List RawRow) : List ExamRecord :=
  (linhas.filter (fun l => decide (l.nome ≠ "Nome do Paciente"))).map
    (paraRegistro parseData parseNum)

/-- Sum of a nullable numeric column over rows: pandas `sum` skips NaN
(null counts as 0) and an empty or all-null column sums to 0. -/
def somar {α : Type} (f : α → Option ℚ) (l : List α) : ℚ :=
  (l.map (fun r => (f r).getD 0)).sum

/-- Insert `x` into `l`, after every element `y` with `le y x` — the
insertion step of a stable ascending insertion sort. -/
def inserir {α : Type} (le : α → α → Bool) (x : α) : List α → List α
  | [] => [x]
  | y :: ys => if le y x then y :: inserir le x ys else x :: y :: ys

/-- Stable ascending insertion sort (elements are inserted left to
right, so ties keep their original relative order). -/
def ordenar {α : Type} (le : α → α → Bool) (l : List α) : List α :=
  l.foldl (fun acc x => inserir le x acc) []

/-- Byte-wise (character) lexicographic `≤` on strings. -/
def charsLe : List Char → List Char → Bool
  | [], _ => true
  | _ :: _, [] => false
  | a :: as, b :: bs => if a < b then true else if b < a then false else charsLe as bs

/-- Lexicographic `≤` on strings (groupby key order). -/
def strLe (a b : String) : Bool := charsLe a.data b.data

/-- Strict lexicographic `<` on strings. -/
def strLt (a b : String) : Bool := strLe a b && !(strLe b a)

/-- Lexicographic `≤` on string pairs (two-column groupby key order). -/
def lePar (a b : String × String) : Bool :=
  if a.1 = b.1 then strLe a.2 b.2 else strLe a.1 b.1

/-- Lexicographic `≤` on string triples (three-column groupby keys). -/
def leTripla (a b : String × String × String) : Bool :=
  if a.1 = b.1 then lePar a.2 b.2 else strLe a.1 b.1

/-- The distinct keys of `rows` under `key`, in first-occurrence order
(to be sorted afterwards; `groupby` emits keys in ascending order). -/
def chavesDe {α κ : Type} [DecidableEq κ] (key : α → κ) (rows : List α) : List κ :=
  (rows.map key).dedup

/-- `df.groupby(key)` with the default `sort=True`: one group per
distinct key, keys in ascending `le` order, each paired with the rows
bearing that key. -/
def agrupar {α κ : Type} [DecidableEq κ] (le : κ → κ → Bool) (key : α → κ)
    (rows : List α) : List (κ × List α) :=
  (ordenar le (chavesDe key rows)).map (fun k => (k, rows.filter (fun r => decide (key r = k))))

/-- Row of the `exames_mes_convenio_modalidade` view (FineGrained). -/
structure FGRow where
  Mes : String
  Convenio : String
  Modalidade : String
  Qtd : ℕ
  Receita_Bruta : ℚ
  Receita_Liquida : ℚ
deriving DecidableEq

/-- Row of the `resumo_mensal` view (MonthlySummary). -/
structure RMRow where
  Mes : String
  Qtd_Exames : ℕ
  Receita_Bruta : ℚ
  Receita_Liquida : ℚ
  Percentual_Lucro : PFloat
deriving DecidableEq

/-- Row of the `dist_convenio` view (PayerDistribution). -/
structure DCRow where
  Convenio : String
  Qtd : ℕ
  Receita_Bruta : ℚ
  Receita_Liquida : ℚ
  Percentual : PFloat
deriving DecidableEq

/-- Row of the `dist_modalidade` view (ModalityDistribution). -/
structure DMRow where
  Modalidade : String
  Qtd : ℕ
  Receita_Bruta : ℚ
  Receita_Liquida : ℚ
  Percentual : PFloat
deriving DecidableEq

/-- Row of the `dist_modalidade_mes` view (ModalityByMonth). -/
structure MMRow where
  Mes : String
  Modalidade : String
  Qtd : ℕ
deriving DecidableEq

/-- The grouping key of the FineGrained view. -/
def chave3 (r : ExamRecord) : String × String × String :=
  (Ano_Mes r, r.convenio, categorizar_modalidade r.exame)

/-- `exames_mes_convenio_modalidade`: group by (month, payer, modality),
count and sum, then the (vacuous) `Mes.notna()` filter of the source. -/
def visaoFG (registros : List ExamRecord) : List FGRow :=
  ((agrupar leTripla chave3 registros).map (fun kg =>
      FGRow.mk kg.1.1 kg.1.2.1 kg.1.2.2 kg.2.length
        (somar (fun r => r.valor) kg.2) (somar (fun r => r.rdf) kg.2))).filter
    (fun row => mes_notna row.Mes)

/-- `resumo_mensal`: group by month, count and sum, compute the profit
percentage `(liquida / bruta * 100).round(2)` (no zero guard: pandas
division yields NaN or ±inf on a zero gross sum), then the (vacuous)
`Mes.notna()` filter. -/
def visaoResumo (registros : List ExamRecord) : List RMRow :=
  ((agrupar strLe Ano_Mes registros).map (fun kg =>
      RMRow.mk kg.1 kg.2.length (somar (fun r => r.valor) kg.2) (somar (fun r => r.rdf) kg.2)
        (pmap (fun q => round2 (q * 100))
          (pdiv (somar (fun r => r.rdf) kg.2) (somar (fun r => r.valor) kg.2))))).filter
    (fun row => mes_notna row.Mes)

/-- `sort_values(by='Qtd', ascending=False)` as pandas performs it:
stable ascending argsort on the column, then reverse the indexer. -/
def ordenarQtdDesc {α : Type} (f : α → ℕ) (l : List α) : List α :=
  (ordenar (fun a b => decide (f a ≤ f b)) l).reverse

/-- `dist_convenio`: group by payer, count and sum, percentage of the
total count, sorted descending by count. -/
def visaoDistConvenio (registros : List ExamRecord) : List DCRow :=
  let grupos := agrupar strLe (fun r => r.convenio) registros
  let total : ℕ := (grupos.map (fun kg => kg.2.length)).sum
  ordenarQtdDesc (fun row => row.Qtd)
    (grupos.map (fun kg =>
      DCRow.mk kg.1 kg.2.length (somar (fun r => r.valor) kg.2) (somar (fun r => r.rdf) kg.2)
        (pmap (fun q => round2 (q * 100)) (pdiv (kg.2.length : ℚ) (total : ℚ)))))

/-- `dist_modalidade`: group by modality, count and sum, percentage of
the total count, sorted descending by count. -/
def visaoDistModalidade (registros : List ExamRecord) : List DMRow :=
  let grupos := agrupar strLe (fun r => categorizar_modalidade r.exame) registros
  let total : ℕ := (grupos.map (fun kg => kg.2.length)).sum
  ordenarQtdDesc (fun row => row.Qtd)
    (grupos.map (fun kg =>
      DMRow.mk kg.1 kg.2.length (somar (fun r => r.valor) kg.2) (somar (fun r => r.rdf) kg.2)
        (pmap (fun q => round2 (q * 100)) (pdiv (kg.2.length : ℚ) (total : ℚ)))))

/-- `dist_modalidade_mes`: group by (month, modality), count, then the
(vacuous) `Mes.notna()` filter. -/
def visaoDistModalidadeMes (registros : List ExamRecord) : List MMRow :=
  ((agrupar lePar (fun r => (Ano_Mes r, categorizar_modalidade r.exame)) registros).map
      (fun kg => MMRow.mk kg.1.1 kg.1.2 kg.2.length)).filter
    (fun row => mes_notna row.Mes)

/-- The snapshot `data_json` bundling the five views (the timestamp is
omitted: no claim concerns it). -/
structure Views where
  exames_mes_convenio_modalidade : List FGRow
  resumo_mensal : List RMRow
  dist_convenio : List DCRow
  dist_modalidade : List DMRow
  dist_modalidade_mes : List MMRow
deriving DecidableEq

/-- The aggregation part of `processar_dados`: the five derived views of
a normalized record list. -/
def processar_dados (registros : List ExamRecord) : Views :=
  { exames_mes_convenio_modalidade := visaoFG registros
    resumo_mensal := visaoResumo registros
    dist_convenio := visaoDistConvenio registros
    dist_modalidade := visaoDistModalidade registros
    dist_modalidade_mes := visaoDistModalidadeMes registros }

/-- `aplicarFiltros` (JavaScript): starting from a fresh copy of the
fine-grained view, filter successively by payer (when the select is
non-empty), month (idem), and modality (when at least one checkbox is
ticked; no ticked box means no modality filtering). -/
def aplicarFiltros (convenio mes : String) (modalidades_sel : List String)
    (dados : List FGRow) : List FGRow :=
  let d1 := if convenio ≠ "" then dados.filter (fun x => x.Convenio == convenio) else dados
  let d2 := if mes ≠ "" then d1.filter (fun x => x.Mes == mes) else d1
  if modalidades_sel ≠ [] then d2.filter (fun x => modalidades_sel.contains x.Modalidade) else d2

/-- The four KPI values computed by `atualizarKPIs` from the (filtered)
fine-grained rows.  `lucro` is `((liquida/bruta)*100).toFixed(2)` when
`bruta > 0` and the number 0 otherwise. -/
structure KPIs where
  qtd : ℕ
  receitaBruta : ℚ
  receitaLiquida : ℚ
  lucro : ℚ
deriving DecidableEq

/-- `atualizarKPIs` (JavaScript): reduce-sums over the filtered rows. -/
def atualizarKPIs (dados : List FGRow) : KPIs :=
  let qtd := (dados.map (fun x => x.Qtd)).sum
  let bruta := (dados.map (fun x => x.Receita_Bruta)).sum
  let liquida := (dados.map (fun x => x.Receita_Liquida)).sum
  { qtd := qtd
    receitaBruta := bruta
    receitaLiquida := liquida
    lucro := if 0 < bruta then toFixed2 (liquida / bruta * 100) else 0 }

/-- One step of `examesPosMes[x.Mes] = (examesPosMes[x.Mes] || 0) + x.Qtd`:
update the existing entry in place or append a new one (ECMAScript keeps
non-index string keys in insertion order). -/
def atualizarAssoc : List (String × ℕ) → String → ℕ → List (String × ℕ)
  | [], m, q => [(m, q)]
  | (k, v) :: resto, m, q =>
    if k = m then (k, v + q) :: resto else (k, v) :: atualizarAssoc resto m q

/-- The exams-per-month chart data: a grouping pass over the already
filtered fine-grained rows. -/
def examesPorMes (dados : List FGRow) : List (String × ℕ) :=
  dados.foldl (fun acc x => atualizarAssoc acc x.Mes x.Qtd) []

/-- The same grouping pass keyed by modality — what the specification
describes for the modality chart (for comparison with what the code
actually charts). -/
def examesPorModalidade (dados : List FGRow) : List (String × ℕ) :=
  dados.foldl (fun acc x => atualizarAssoc acc x.Modalidade x.Qtd) []

/-- The charted value of a month: total of the entries carrying it. -/
def procurar (l : List (String × ℕ)) (m : String) : ℕ :=
  ((l.filter (fun p => decide (p.1 = m))).map (fun p => p.2)).sum

/-- The chart datasets built by `atualizarGraficos`.  The exams-per-month
line chart reads `filteredData`; the payer bar chart and both modality
charts read `allData` (the unfiltered snapshot). -/
structure Graficos where
  graficoExamesMes : List (String × ℕ)
  graficoConvenio : List (String × ℕ)
  graficoModalidade : List (String × ℕ)
  graficoModalidadeQtd : List (String × ℕ)
deriving DecidableEq

/-- `atualizarGraficos` (JavaScript): label/data extraction for the four
charts.  `convenioDados` drops the payer `CORTESIA`; `modalidadeDados`
drops the modality `Outros`; both are computed from `allData`. -/
def atualizarGraficos (allData : Views) (filteredFG : List FGRow) : Graficos :=
  let convenioDados := allData.dist_convenio.filter (fun x => decide (x.Convenio ≠ "CORTESIA"))
  let modalidadeDados := allData.dist_modalidade.filter (fun x => decide (x.Modalidade ≠ "Outros"))
  { graficoExamesMes := examesPorMes filteredFG
    graficoConvenio := convenioDados.map (fun x => (x.Convenio, x.Qtd))
    graficoModalidade := modalidadeDados.map (fun x => (x.Modalidade, x.Qtd))
    graficoModalidadeQtd := modalidadeDados.map (fun x => (x.Modalidade, x.Qtd)) }

/-- A modality card produced by `atualizarCards`. -/
structure Card where
  modalidade : String
  Qtd : ℕ
  Receita_Bruta : ℚ
  Receita_Liquida : ℚ
deriving DecidableEq

/-- `atualizarCards` (JavaScript): one card per row of the *unfiltered*
`dist_modalidade`, the modality `Outros` excluded. -/
def atualizarCards (allData : Views) : List Card :=
  (allData.dist_modalidade.filter (fun x => decide (x.Modalidade ≠ "Outros"))).map
    (fun x => Card.mk x.Modalidade x.Qtd x.Receita_Bruta x.Receita_Liquida)

/-- Sample record with an unparsable exam date and a mammography
description (the spec's scenario row). -/
def regNaT : ExamRecord :=
  ⟨"Caio", none, "PART", some "MAMOGRAFIA BILATERAL", some 100, none, none, none, some 90⟩

/-- Sample record with an unparsable date and no numeric values at all. -/
def regSemData : ExamRecord :=
  ⟨"Caio", none, "PART", none, none, none, none, none, none⟩

/-- Sample record whose month group has a zero gross sum but a positive
net sum. -/
def regInfinito : ExamRecord :=
  ⟨"Caio", some "2024-01", "A", none, none, none, none, none, some 10⟩

/-- Sample record whose profit ratio `1/800*100 = 0.125` sits exactly on
a rounding tie. -/
def regEmpate : ExamRecord :=
  ⟨"Ana", some "2024-01", "A", none, some 800, none, none, none, some 1⟩

/-- Sample record of payer `A`, modality Mammography. -/
def regA : ExamRecord :=
  ⟨"Ana", some "2024-01", "A", some "MAMOGRAFIA", some 10, none, none, none, some 5⟩

/-- Sample record of payer `B`, modality Doppler. -/
def regB : ExamRecord :=
  ⟨"Bia", some "2024-01", "B", some "DOPPLER", some 10, none, none, none, some 5⟩

/-- Sample record of the courtesy payer. -/
def regCortesia : ExamRecord :=
  ⟨"Ana", some "2024-01", "CORTESIA", some "MAMOGRAFIA", some 10, none, none, none, some 5⟩

/-- Sample record whose description matches no modality rule. -/
def regOutros : ExamRecord :=
  ⟨"Bia", some "2024-01", "B", some "CONSULTA", some 10, none, none, none, some 5⟩

/-- A duplicate header artifact row of a concatenated export. -/
def linhaCabecalho : RawRow :=
  ⟨"Nome do Paciente", "Data", "Convenio", some "Exame", "Valor", "Taxa", "PS", "PM", "RDF"⟩

/-- A data row whose numeric/date cells are all unparsable. -/
def linhaDados : RawRow :=
  ⟨"Ana", "???", "InsCo", some "RAIO X TORAX", "x", "y", "z", "w", "v"⟩

/-! ## Generic lemmas about the insertion sort -/

theorem mem_inserir {α : Type} (le : α → α → Bool) (x a : α) :
    ∀ l : List α, (a ∈ inserir le x l ↔ a = x ∨ a ∈ l)
  | [] => by simp [inserir]
  | y :: ys => by
    by_cases h : le y x = true
    · simp only [inserir, if_pos h, List.mem_cons, mem_inserir le x a ys]
      tauto
    · simp only [inserir, if_neg h, List.mem_cons]

theorem inserir_perm {α : Type} (le : α → α → Bool) (x : α) :
    ∀ l : List α, List.Perm (inserir le x l) (x :: l)
  | [] => List.Perm.refl _
  | y :: ys => by
    by_cases h : le y x = true
    · simp only [inserir, if_pos h]
      exact ((inserir_perm le x ys).cons y).trans (List.Perm.swap x y ys)
    · simp only [inserir, if_neg h]
      exact List.Perm.refl _

theorem foldl_inserir_perm {α : Type} (le : α → α → Bool) :
    ∀ (l acc : List α), List.Perm (l.foldl (fun acc x => inserir le x acc) acc) (acc ++ l)
  | [], acc => by simp
  | x :: xs, acc => by
    refine (foldl_inserir_perm le xs (inserir le x acc)).trans ?_
    refine (((inserir_perm le x acc).append_right xs).trans ?_)
    exact (List.perm_middle).symm

theorem ordenar_perm {α : Type} (le : α → α → Bool) (l : List α) :
    List.Perm (ordenar le l) l := by
  simpa using foldl_inserir_perm le l []

theorem mem_ordenar {α : Type} (le : α → α → Bool) (a : α) (l : List α) :
    a ∈ ordenar le l ↔ a ∈ l :=
  (ordenar_perm le l).mem_iff

theorem nodup_ordenar {α : Type} (le : α → α → Bool) (l : List α) (h : l.Nodup) :
    (ordenar le l).Nodup :=
  (ordenar_perm le l).nodup_iff.2 h

theorem pairwise_inserir {α : Type} (le : α → α → Bool)
    (hTot : ∀ a b, le a b = true ∨ le b a = true)
    (hTrans : ∀ a b c, le a b = true → le b c = true → le a c = true) (x : α) :
    ∀ l : List α, l.Pairwise (fun a b => le a b = true) →
      (inserir le x l).Pairwise (fun a b => le a b = true)
  | [], _ => by simp [inserir]
  | y :: ys, h => by
    rcases List.pairwise_cons.1 h with ⟨hy, hys⟩
    by_cases hle : le y x = true
    · simp only [inserir, if_pos hle]
      refine List.pairwise_cons.2 ⟨?_, pairwise_inserir le hTot hTrans x ys hys⟩
      intro w hw
      rcases (mem_inserir le x w ys).1 hw with rfl | hw
      · exact hle
      · exact hy w hw
    · simp only [inserir, if_neg hle]
      have hxy : le x y = true := (hTot x y).resolve_right (fun h => hle h)
      refine List.pairwise_cons.2 ⟨?_, h⟩
      intro w hw
      rcases List.mem_cons.1 hw with rfl | hw
      · exact hxy
      · exact hTrans x y w hxy (hy w hw)

theorem pairwise_foldl_inserir {α : Type} (le : α → α → Bool)
    (hTot : ∀ a b, le a b = true ∨ le b a = true)
    (hTrans : ∀ a b c, le a b = true → le b c = true → le a c = true) :
    ∀ (l acc : List α), acc.Pairwise (fun a b => le a b = true) →
      (l.foldl (fun acc x => inserir le x acc) acc).Pairwise (fun a b => le a b = true)
  | [], _, h => h
  | x :: xs, acc, h =>
    pairwise_foldl_inserir le hTot hTrans xs (inserir le x acc)
      (pairwise_inserir le hTot hTrans x acc h)

theorem pairwise_ordenar {α : Type} (le : α → α → Bool)
    (hTot : ∀ a b, le a b = true ∨ le b a = true)
    (hTrans : ∀ a b c, le a b = true → le b c = true → le a c = true) (l : List α) :
    (ordenar le l).Pairwise (fun a b => le a b = true) :=
  pairwise_foldl_inserir le hTot hTrans l [] List.Pairwise.nil

theorem pairwise_inserir_estavel {α : Type} (f : α → ℕ) (q : α → α → Prop) (x : α) :
    ∀ l : List α, l.Pairwise (fun a b => f a < f b ∨ (f a = f b ∧ q a b)) →
      (∀ y ∈ l, f y = f x → q y x) →
      (inserir (fun a b => decide (f a ≤ f b)) x l).Pairwise
        (fun a b => f a < f b ∨ (f a = f b ∧ q a b))
  | [], _, _ => by simp [inserir]
  | y :: ys, h, hq => by
    rcases List.pairwise_cons.1 h with ⟨hy, hys⟩
    by_cases hle : f y ≤ f x
    · simp only [inserir, decide_eq_true_eq, if_pos hle]
      refine List.pairwise_cons.2 ⟨?_, ?_⟩
      · intro w hw
        rcases (mem_inserir _ x w ys).1 hw with rfl | hw
        · rcases Nat.lt_or_ge (f y) (f w) with hlt | hge
          · exact Or.inl hlt
          · exact Or.inr ⟨Nat.le_antisymm hle hge, hq y (List.mem_cons_self y ys) (Nat.le_antisymm hle hge)⟩
        · exact hy w hw
      · exact pairwise_inserir_estavel f q x ys hys (fun z hz => hq z (List.mem_cons_of_mem y hz))
    · simp only [inserir, decide_eq_true_eq, if_neg hle]
      have hxy : f x < f y := Nat.lt_of_not_le hle
      refine List.pairwise_cons.2 ⟨?_, h⟩
      intro w hw
      rcases List.mem_cons.1 hw with rfl | hw
      · exact Or.inl hxy
      · have hyw : f y ≤ f w := by
          rcases hy w hw with hlt | ⟨he, _⟩
          · exact Nat.le_of_lt hlt
          · exact Nat.le_of_eq he
        exact Or.inl (Nat.lt_of_lt_of_le hxy hyw)

theorem pairwise_foldl_inserir_estavel {α : Type} (f : α → ℕ) (q : α → α → Prop) :
    ∀ (l acc : List α), acc.Pairwise (fun a b => f a < f b ∨ (f a = f b ∧ q a b)) →
      (∀ y ∈ acc, ∀ z ∈ l, q y z) → l.Pairwise q →
      (l.foldl (fun acc x => inserir (fun a b => decide (f a ≤ f b)) x acc) acc).Pairwise
        (fun a b => f a < f b ∨ (f a = f b ∧ q a b))
  | [], _, h, _, _ => h
  | x :: xs, acc, h, hacc, hl => by
    rcases List.pairwise_cons.1 hl with ⟨hx, hxs⟩
    refine pairwise_foldl_inserir_estavel f q xs _ ?_ ?_ hxs
    · exact pairwise_inserir_estavel f q x acc h
        (fun y hy _ => hacc y hy x (List.mem_cons_self x xs))
    · intro y hy z hz
      rcases (mem_inserir _ x y acc).1 hy with rfl | hy
      · exact hx z hz
      · exact hacc y hy z (List.mem_cons_of_mem x hz)

theorem pairwise_ordenar_estavel {α : Type} (f : α → ℕ) (q : α → α → Prop) (l : List α)
    (hl : l.Pairwise q) :
    (ordenar (fun a b => decide (f a ≤ f b)) l).Pairwise
      (fun a b => f a < f b ∨ (f a = f b ∧ q a b)) :=
  pairwise_foldl_inserir_estavel f q l [] List.Pairwise.nil (by simp) hl

/-! ## The lexicographic string order used for groupby keys -/

theorem charsLe_total : ∀ p q : List Char, charsLe p q = true ∨ charsLe q p = true
  | [], _ => Or.inl rfl
  | _ :: _, [] => Or.inr rfl
  | a :: as, b :: bs => by
    rcases lt_trichotomy a b with h | h | h
    · left
      simp [charsLe, h]
    · subst h
      rcases charsLe_total as bs with ih | ih
      · left
        simpa [charsLe] using ih
      · right
        simpa [charsLe] using ih
    · right
      simp [charsLe, h]

theorem charsLe_trans : ∀ p q r : List Char,
    charsLe p q = true → charsLe q r = true → charsLe p r = true
  | [], _, _, _, _ => rfl
  | _ :: _, [], _, h, _ => by simp [charsLe] at h
  | _ :: _, _ :: _, [], _, h => by simp [charsLe] at h
  | a :: as, b :: bs, c :: cs, h1, h2 => by
    simp only [charsLe] at h1 h2 ⊢
    rcases lt_trichotomy a b with hab | hab | hab
    · rcases lt_trichotomy b c with hbc | hbc | hbc
      · simp [lt_trans hab hbc]
      · subst hbc
        simp [hab]
      · rw [if_neg (lt_asymm hbc), if_pos hbc] at h2
        exact absurd h2 (by simp)
    · subst hab
      rw [if_neg (lt_irrefl a), if_neg (lt_irrefl a)] at h1
      rcases lt_trichotomy a c with hac | hac | hac
      · simp [hac]
      · subst hac
        rw [if_neg (lt_irrefl a), if_neg (lt_irrefl a)] at h2 ⊢
        exact charsLe_trans as bs cs h1 h2
      · rw [if_neg (lt_asymm hac), if_pos hac] at h2
        exact absurd h2 (by simp)
    · rw [if_neg (lt_asymm hab), if_pos hab] at h1
      exact absurd h1 (by simp)

theorem charsLe_antisymm : ∀ p q : List Char,
    charsLe p q = true → charsLe q p = true → p = q
  | [], [], _, _ => rfl
  | [], _ :: _, _, h => by simp [charsLe] at h
  | _ :: _, [], h, _ => by simp [charsLe] at h
  | a :: as, b :: bs, h1, h2 => by
    simp only [charsLe] at h1 h2
    rcases lt_trichotomy a b with hab | hab | hab
    · rw [if_neg (lt_asymm hab), if_pos hab] at h2
      exact absurd h2 (by simp)
    · subst hab
      simp only [if_neg (lt_irrefl a)] at h1 h2
      rw [charsLe_antisymm as bs h1 h2]
    · rw [if_neg (lt_asymm hab), if_pos hab] at h1
      exact absurd h1 (by simp)

theorem strLe_total (a b : String) : strLe a b = true ∨ strLe b a = true :=
  charsLe_total a.data b.data

theorem strLe_trans (a b c : String) (h1 : strLe a b = true) (h2 : strLe b c = true) :
    strLe a c = true :=
  charsLe_trans a.data b.data c.data h1 h2

theorem strLe_antisymm (a b : String) (h1 : strLe a b = true) (h2 : strLe b a = true) :
    a = b := by
  cases a
  cases b
  exact congrArg String.mk (charsLe_antisymm _ _ h1 h2)

/-! ## Partition lemmas: a groupby covers the rows exactly once -/

theorem soma_mapa_add {κ M : Type} [AddCommMonoid M] (A B : κ → M) :
    ∀ l : List κ, (l.map (fun k => A k + B k)).sum = (l.map A).sum + (l.map B).sum
  | [] => by simp
  | k :: ks => by
    simp only [List.map_cons, List.sum_cons, soma_mapa_add A B ks]
    exact add_add_add_comm _ _ _ _

theorem soma_ite_fora {κ M : Type} [DecidableEq κ] [AddCommMonoid M] (a : κ) (x : M) :
    ∀ l : List κ, a ∉ l → (l.map (fun k => if a = k then x else 0)).sum = 0
  | [], _ => rfl
  | k :: ks, h => by
    have hak : a ≠ k := fun hh => h (hh ▸ List.mem_cons_self k ks)
    simp only [List.map_cons, List.sum_cons, if_neg hak,
      soma_ite_fora a x ks (fun hh => h (List.mem_cons_of_mem k hh)), add_zero]

theorem soma_ite_unica {κ M : Type} [DecidableEq κ] [AddCommMonoid M] (a : κ) (x : M) :
    ∀ l : List κ, l.Nodup → a ∈ l → (l.map (fun k => if a = k then x else 0)).sum = x
  | [], _, h => absurd h (List.not_mem_nil a)
  | k :: ks, hnd, h => by
    rcases List.mem_cons.1 h with rfl | hmem
    · have hout : a ∉ ks := (List.nodup_cons.1 hnd).1
      simp [soma_ite_fora a x ks hout]
    · have hak : a ≠ k := fun hh => (List.nodup_cons.1 hnd).1 (hh ▸ hmem)
      simp only [List.map_cons, List.sum_cons, if_neg hak, zero_add]
      exact soma_ite_unica a x ks (List.nodup_cons.1 hnd).2 hmem

theorem soma_particao {α κ M : Type} [DecidableEq κ] [AddCommMonoid M]
    (key : α → κ) (g : α → M) :
    ∀ (rows : List α) (ks : List κ), ks.Nodup → (∀ r ∈ rows, key r ∈ ks) →
      (ks.map (fun k => ((rows.filter (fun r => decide (key r = k))).map g).sum)).sum =
        (rows.map g).sum
  | [], ks, _, _ => by simp
  | r :: rest, ks, hnd, hcov => by
    have hrest := soma_particao key g rest ks hnd
      (fun x hx => hcov x (List.mem_cons_of_mem r hx))
    have hcada : ∀ k : κ,
        (((r :: rest).filter (fun s => decide (key s = k))).map g).sum =
          (if key r = k then g r else 0) +
            ((rest.filter (fun s => decide (key s = k))).map g).sum := by
      intro k
      by_cases h : key r = k
      · simp [List.filter_cons, h]
      · simp [List.filter_cons, h]
    calc (ks.map (fun k => (((r :: rest).filter (fun s => decide (key s = k))).map g).sum)).sum
        = (ks.map (fun k => (if key r = k then g r else 0) +
            ((rest.filter (fun s => decide (key s = k))).map g).sum)).sum := by
          exact congrArg List.sum (List.map_congr_left (fun k _ => hcada k))
      _ = (ks.map (fun k => if key r = k then g r else 0)).sum +
            (ks.map (fun k => ((rest.filter (fun s => decide (key s = k))).map g).sum)).sum :=
          soma_mapa_add _ _ ks
      _ = g r + (rest.map g).sum := by
          rw [soma_ite_unica (key r) (g r) ks hnd (hcov r (List.mem_cons_self r rest)), hrest]
      _ = ((r :: rest).map g).sum := by simp

/-! ## Facts about `agrupar` (groupby) and the views -/

theorem soma_uns {β : Type} : ∀ l : List β, (l.map (fun _ => (1 : ℕ))).sum = l.length
  | [] => rfl
  | _ :: xs => by simp [soma_uns xs, Nat.add_comm]

theorem nodup_chaves {α κ : Type} [DecidableEq κ] (le : κ → κ → Bool) (key : α → κ)
    (rows : List α) : (ordenar le (chavesDe key rows)).Nodup :=
  nodup_ordenar le _ (List.nodup_dedup _)

theorem cobre_chaves {α κ : Type} [DecidableEq κ] (le : κ → κ → Bool) (key : α → κ)
    (rows : List α) (r : α) (hr : r ∈ rows) : key r ∈ ordenar le (chavesDe key rows) := by
  rw [mem_ordenar]
  exact List.mem_dedup.2 (List.mem_map_of_mem key hr)

theorem soma_agrupar {α κ M : Type} [DecidableEq κ] [AddCommMonoid M]
    (le : κ → κ → Bool) (key : α → κ) (g : α → M) (rows : List α) :
    ((agrupar le key rows).map (fun kg => ((kg.2).map g).sum)).sum = (rows.map g).sum := by
  unfold agrupar
  rw [List.map_map]
  have h := soma_particao key g rows (ordenar le (chavesDe key rows))
    (nodup_chaves le key rows) (cobre_chaves le key rows)
  simpa [Function.comp] using h

theorem conta_agrupar {α κ : Type} [DecidableEq κ]
    (le : κ → κ → Bool) (key : α → κ) (rows : List α) :
    ((agrupar le key rows).map (fun kg => kg.2.length)).sum = rows.length := by
  have h := soma_agrupar le key (fun _ => (1 : ℕ)) rows
  simpa [soma_uns] using h

theorem chave_em_agrupar {α κ : Type} [DecidableEq κ] (le : κ → κ → Bool) (key : α → κ)
    (rows : List α) (r : α) (hr : r ∈ rows) :
    (key r, rows.filter (fun s => decide (key s = key r))) ∈ agrupar le key rows := by
  unfold agrupar
  exact List.mem_map.2 ⟨key r, cobre_chaves le key rows r hr, rfl⟩

theorem mem_ordenarQtdDesc {α : Type} (f : α → ℕ) (a : α) (l : List α) :
    a ∈ ordenarQtdDesc f l ↔ a ∈ l := by
  unfold ordenarQtdDesc
  rw [List.mem_reverse, mem_ordenar]

theorem filtro_mes_notna {β : Type} (f : β → String) (l : List β) :
    l.filter (fun x => mes_notna (f x)) = l := by
  simp [mes_notna]

theorem fg_soma_qtd (registros : List ExamRecord) :
    ((visaoFG registros).map (fun r => r.Qtd)).sum = registros.length := by
  unfold visaoFG
  rw [filtro_mes_notna, List.map_map]
  have h := conta_agrupar leTripla chave3 registros
  simpa [Function.comp] using h

theorem fg_soma_bruta (registros : List ExamRecord) :
    ((visaoFG registros).map (fun r => r.Receita_Bruta)).sum =
      somar (fun r => r.valor) registros := by
  unfold visaoFG somar
  rw [filtro_mes_notna, List.map_map]
  have h := soma_agrupar leTripla chave3 (fun r => (r.valor).getD 0) registros
  simpa [Function.comp, somar] using h

theorem fg_soma_liquida (registros : List ExamRecord) :
    ((visaoFG registros).map (fun r => r.Receita_Liquida)).sum =
      somar (fun r => r.rdf) registros := by
  unfold visaoFG somar
  rw [filtro_mes_notna, List.map_map]
  have h := soma_agrupar leTripla chave3 (fun r => (r.rdf).getD 0) registros
  simpa [Function.comp, somar] using h

theorem rm_soma_qtd (registros : List ExamRecord) :
    ((visaoResumo registros).map (fun r => r.Qtd_Exames)).sum = registros.length := by
  unfold visaoResumo
  rw [filtro_mes_notna, List.map_map]
  have h := conta_agrupar strLe Ano_Mes registros
  simpa [Function.comp] using h

theorem rm_soma_bruta (registros : List ExamRecord) :
    ((visaoResumo registros).map (fun r => r.Receita_Bruta)).sum =
      somar (fun r => r.valor) registros := by
  unfold visaoResumo somar
  rw [filtro_mes_notna, List.map_map]
  have h := soma_agrupar strLe Ano_Mes (fun r => (r.valor).getD 0) registros
  simpa [Function.comp, somar] using h

theorem rm_soma_liquida (registros : List ExamRecord) :
    ((visaoResumo registros).map (fun r => r.Receita_Liquida)).sum =
      somar (fun r => r.rdf) registros := by
  unfold visaoResumo somar
  rw [filtro_mes_notna, List.map_map]
  have h := soma_agrupar strLe Ano_Mes (fun r => (r.rdf).getD 0) registros
  simpa [Function.comp, somar] using h

theorem aplicarFiltros_vazio (dados : List FGRow) :
    aplicarFiltros "" "" [] dados = dados := by
  simp [aplicarFiltros]

/-! ## The JavaScript per-month grouping fold -/

theorem procurar_cons (k : String) (v : ℕ) (l : List (String × ℕ)) (m : String) :
    procurar ((k, v) :: l) m = (if k = m then v else 0) + procurar l m := by
  by_cases h : k = m
  · simp [procurar, List.filter_cons, h]
  · simp [procurar, List.filter_cons, h]

theorem procurar_atualizar (m : String) :
    ∀ (acc : List (String × ℕ)) (k : String) (q : ℕ),
      procurar (atualizarAssoc acc k q) m = procurar acc m + (if k = m then q else 0)
  | [], k, q => by
    by_cases h : k = m
    · simp [atualizarAssoc, procurar, List.filter_cons, h]
    · simp [atualizarAssoc, procurar, List.filter_cons, h]
  | (a, v) :: resto, k, q => by
    by_cases hak : a = k
    · subst hak
      simp only [atualizarAssoc, eq_self_iff_true, if_true]
      rw [procurar_cons, procurar_cons]
      by_cases ham : a = m
      · simp only [if_pos ham]
        omega
      · simp only [if_neg ham]
        omega
    · simp only [atualizarAssoc, if_neg hak]
      rw [procurar_cons, procurar_cons, procurar_atualizar m resto k q]
      omega

theorem procurar_foldl (m : String) :
    ∀ (dados : List FGRow) (acc : List (String × ℕ)),
      procurar (dados.foldl (fun acc x => atualizarAssoc acc x.Mes x.Qtd) acc) m =
        procurar acc m +
          ((dados.filter (fun x => decide (x.Mes = m))).map (fun x => x.Qtd)).sum
  | [], acc => by simp
  | x :: xs, acc => by
    rw [List.foldl_cons, procurar_foldl m xs, procurar_atualizar m acc]
    by_cases h : x.Mes = m
    · simp [List.filter_cons, h]
      omega
    · simp [List.filter_cons, h]

theorem procurar_examesPorMes (dados : List FGRow) (m : String) :
    procurar (examesPorMes dados) m =
      ((dados.filter (fun x => decide (x.Mes = m))).map (fun x => x.Qtd)).sum := by
  unfold examesPorMes
  rw [procurar_foldl m dados []]
  simp [procurar]

/-! ## First-match behaviour of the classifier loop -/

theorem buscar_regra (u : String) :
    ∀ (rs : List (String × String)) (i : ℕ) (hi : i < rs.length),
      contem (rs.get ⟨i, hi⟩).1 u = true →
      (∀ j (hj : j < i), contem (rs.get ⟨j, hj.trans hi⟩).1 u = false) →
      buscar rs u = (rs.get ⟨i, hi⟩).2
  | [], i, hi, _, _ => absurd hi (Nat.not_lt_zero i)
  | (chave, valor) :: resto, 0, _, hmatch, _ => by
    simp only [List.get] at hmatch ⊢
    simp [buscar, hmatch]
  | (chave, valor) :: resto, i + 1, hi, hmatch, hprev => by
    have h0 : contem chave u = false := hprev 0 (Nat.succ_pos i)
    simp only [List.get] at hmatch ⊢
    rw [buscar, if_neg (by simp [h0])]
    exact buscar_regra u resto i (Nat.lt_of_succ_lt_succ hi) hmatch
      (fun j hj => hprev (j + 1) (Nat.succ_lt_succ hj))

/-! ## Bool conversions used for the filter identity -/

theorem contains_como_decide {α : Type} [BEq α] [LawfulBEq α] [DecidableEq α]
    (l : List α) (a : α) : l.contains a = decide (a ∈ l) := by
  by_cases h : a ∈ l
  · simp [h]
  · simp [h]

theorem buscar_nenhum (u : String) :
    ∀ rs : List (String × String), (∀ par ∈ rs, contem par.1 u = false) → buscar rs u = "Outros"
  | [], _ => rfl
  | (chave, valor) :: resto, h => by
    have h0 : contem chave u = false := h (chave, valor) (List.mem_cons_self _ _)
    rw [buscar, if_neg (by simp [h0])]
    exact buscar_nenhum u resto (fun par hp => h par (List.mem_cons_of_mem _ hp))

theorem strLt_de_le_ne (a b : String) (h1 : strLe a b = true) (h2 : a ≠ b) :
    strLt a b = true := by
  have hba : strLe b a = false := by
    cases hba : strLe b a
    · rfl
    · exact absurd (strLe_antisymm a b h1 hba) h2
  simp [strLt, h1, hba]

theorem filtro_condicional {α : Type} (c : Prop) [Decidable c] (p : α → Bool) (l : List α) :
    (if c then l.filter p else l) = l.filter (fun x => !(decide c) || p x) := by
  by_cases h : c
  · simp [h]
  · simp [h]

/-- Claim C1: with an empty filter (no payer, no month, no modality
selected) the KPI totals recomputed from the FineGrained view equal the
MonthlySummary totals summed over all months — count, gross sum, net
sum, and the profit percentage obtained from those totals by the same
guard and rounding. -/
theorem c1_kpis_sem_filtro_igual_resumo (registros : List ExamRecord) :
    (atualizarKPIs (aplicarFiltros "" "" []
        (processar_dados registros).exames_mes_convenio_modalidade)).qtd =
      (((processar_dados registros).resumo_mensal).map (fun r => r.Qtd_Exames)).sum ∧
    (atualizarKPIs (aplicarFiltros "" "" []
        (processar_dados registros).exames_mes_convenio_modalidade)).receitaBruta =
      (((processar_dados registros).resumo_mensal).map (fun r => r.Receita_Bruta)).sum ∧
    (atualizarKPIs (aplicarFiltros "" "" []
        (processar_dados registros).exames_mes_convenio_modalidade)).receitaLiquida =
      (((processar_dados registros).resumo_mensal).map (fun r => r.Receita_Liquida)).sum ∧
    (atualizarKPIs (aplicarFiltros "" "" []
        (processar_dados registros).exames_mes_convenio_modalidade)).lucro =
      (if 0 < (((processar_dados registros).resumo_mensal).map (fun r => r.Receita_Bruta)).sum
        then toFixed2
          ((((processar_dados registros).resumo_mensal).map (fun r => r.Receita_Liquida)).sum /
            (((processar_dados registros).resumo_mensal).map (fun r => r.Receita_Bruta)).sum * 100)
        else 0) := by
  rw [aplicarFiltros_vazio]
  simp only [processar_dados, atualizarKPIs]
  refine ⟨?_, ?_, ?_, ?_⟩
  · rw [fg_soma_qtd, rm_soma_qtd]
  · rw [fg_soma_bruta, rm_soma_bruta]
  · rw [fg_soma_liquida, rm_soma_liquida]
  · rw [fg_soma_bruta, fg_soma_liquida, rm_soma_bruta, rm_soma_liquida]

/-- Claim C7 (amended statement is the claim itself): `aplicarFiltros`
keeps exactly the FineGrained rows satisfying the conjunction of the
selected predicates, where an empty payer/month selection and an empty
modality subset each impose no constraint; selecting a modality subset
that covers every row is the same as selecting none. -/
theorem c7_filtro_conjuncao (conv mes : String) (mods : List String) (dados : List FGRow) :
    aplicarFiltros conv mes mods dados =
      dados.filter (fun x =>
        decide ((mods = [] ∨ x.Modalidade ∈ mods) ∧ (mes = "" ∨ x.Mes = mes) ∧
          (conv = "" ∨ x.Convenio = conv))) ∧
    ((∀ x ∈ dados, x.Modalidade ∈ mods) →
      aplicarFiltros conv mes mods dados = aplicarFiltros conv mes [] dados) := by
  have hprincipal : ∀ ms : List String, aplicarFiltros conv mes ms dados =
      dados.filter (fun x =>
        decide ((ms = [] ∨ x.Modalidade ∈ ms) ∧ (mes = "" ∨ x.Mes = mes) ∧
          (conv = "" ∨ x.Convenio = conv))) := by
    intro ms
    unfold aplicarFiltros
    rw [filtro_condicional, filtro_condicional, filtro_condicional,
      List.filter_filter, List.filter_filter]
    refine List.filter_congr ?_
    intro x _
    by_cases h1 : ms = [] <;> by_cases h2 : x.Modalidade ∈ ms <;> by_cases h3 : mes = "" <;>
      by_cases h4 : x.Mes = mes <;> by_cases h5 : conv = "" <;> by_cases h6 : x.Convenio = conv <;>
      simp [h1, h2, h3, h4, h5, h6, beq_eq_decide, contains_como_decide]
  refine ⟨hprincipal mods, ?_⟩
  intro hcob
  rw [hprincipal mods, hprincipal []]
  refine List.filter_congr ?_
  intro x hx
  simp [hcob x hx]

/-- Claim C7, witness: a covering modality selection behaves like no
selection on a concrete snapshot row. -/
theorem c7_testemunha :
    aplicarFiltros "A" "" ["Mamografia"] [⟨"2024-01", "A", "Mamografia", 1, 10, 5⟩] =
      aplicarFiltros "A" "" [] [⟨"2024-01", "A", "Mamografia", 1, 10, 5⟩] :=
  (c7_filtro_conjuncao "A" "" ["Mamografia"] [⟨"2024-01", "A", "Mamografia", 1, 10, 5⟩]).2
    (by decide)

/-- Claim C9: normalization never fails on a data row — duplicate-header
rows (`Nome do Paciente` in the patient column) are dropped, every other
row survives with the six leniently parsed fields set to whatever the
lenient parsers return (null when unparsable), and the empty table
normalizes to the empty record list. -/
theorem c9_normalizacao_total (parseData : String → Option String)
    (parseNum : String → Option ℚ) (linhas : List RawRow) :
    (∀ reg ∈ normalizar parseData parseNum linhas, reg.nome ≠ "Nome do Paciente") ∧
    (normalizar parseData parseNum linhas).length =
      (linhas.filter (fun l => decide (l.nome ≠ "Nome do Paciente"))).length ∧
    (∀ l ∈ linhas, l.nome ≠ "Nome do Paciente" →
      paraRegistro parseData parseNum l ∈ normalizar parseData parseNum linhas) ∧
    (∀ l : RawRow,
      (paraRegistro parseData parseNum l).nome = l.nome ∧
      (paraRegistro parseData parseNum l).convenio = l.convenio ∧
      (paraRegistro parseData parseNum l).exame = l.exame ∧
      (paraRegistro parseData parseNum l).dataYM = parseData l.data ∧
      (paraRegistro parseData parseNum l).valor = parseNum l.valor ∧
      (paraRegistro parseData parseNum l).taxa = parseNum l.taxa ∧
      (paraRegistro parseData parseNum l).pctSase = parseNum l.pctSase ∧
      (paraRegistro parseData parseNum l).pctMedico = parseNum l.pctMedico ∧
      (paraRegistro parseData parseNum l).rdf = parseNum l.rdf) ∧
    normalizar parseData parseNum [] = [] := by
  refine ⟨?_, ?_, ?_, ?_, rfl⟩
  · intro reg hreg
    simp only [normalizar, List.mem_map, List.mem_filter, decide_eq_true_eq] at hreg
    obtain ⟨l, ⟨_, hne⟩, rfl⟩ := hreg
    exact hne
  · simp [normalizar]
  · intro l hl hne
    simp only [normalizar]
    exact List.mem_map_of_mem _ (List.mem_filter.2 ⟨hl, by simp [hne]⟩)
  · intro l
    exact ⟨rfl, rfl, rfl, rfl, rfl, rfl, rfl, rfl, rfl⟩

/-- Claim C9, witness: on a table of one duplicate-header row and one
fully unparsable data row, the data row survives normalization. -/
theorem c9_testemunha :
    paraRegistro (fun _ => none) (fun _ => none) linhaDados ∈
      normalizar (fun _ => none) (fun _ => none) [linhaCabecalho, linhaDados] :=
  (c9_normalizacao_total (fun _ => none) (fun _ => none) [linhaCabecalho, linhaDados]).2.2.1
    linhaDados (by decide) (by decide)

/-- Claim C5, amended: `categorizar_modalidade` maps a null or blank
description to `Outros`, returns the modality of the first rule of the
ordered table whose substring occurs in the uppercased description
(`Outros` when none does), and a description containing both `RX` and
`DOPPLER` classifies as `Raio X` provided no earlier rule
(`MAMOGRAFIA`, `DENSITOMETRIA`, `ULTRASSONOGRAFIA`, `ULTRASSOM`)
matches it as well. -/
theorem c5_classificador_primeira_regra :
    categorizar_modalidade none = "Outros" ∧
    categorizar_modalidade (some "") = "Outros" ∧
    (∀ s : String, (∀ par ∈ modalidades, contem par.1 (maiuscula s) = false) →
      categorizar_modalidade (some s) = "Outros") ∧
    (∀ (s : String) (i : ℕ) (hi : i < modalidades.length),
      contem (modalidades.get ⟨i, hi⟩).1 (maiuscula s) = true →
      (∀ j (hj : j < i), contem (modalidades.get ⟨j, hj.trans hi⟩).1 (maiuscula s) = false) →
      categorizar_modalidade (some s) = (modalidades.get ⟨i, hi⟩).2) ∧
    (∀ s : String, contem "RX" (maiuscula s) = true → contem "DOPPLER" (maiuscula s) = true →
      contem "MAMOGRAFIA" (maiuscula s) = false → contem "DENSITOMETRIA" (maiuscula s) = false →
      contem "ULTRASSONOGRAFIA" (maiuscula s) = false → contem "ULTRASSOM" (maiuscula s) = false →
      categorizar_modalidade (some s) = "Raio X") := by
  refine ⟨rfl, by decide, ?_, ?_, ?_⟩
  · intro s h
    exact buscar_nenhum (maiuscula s) modalidades h
  · intro s i hi hmatch hprev
    exact buscar_regra (maiuscula s) modalidades i hi hmatch hprev
  · intro s hRX hDop hMam hDen hUsg hUsm
    cases hx : contem "RAIO X" (maiuscula s) <;> cases hy : contem "RAIO-X" (maiuscula s) <;>
      simp [categorizar_modalidade, modalidades, buscar, hRX, hMam, hDen, hUsg, hUsm, hx, hy]

/-- Claim C5, counterexample: `"MAMOGRAFIA RX DOPPLER"` contains both
`RX` and `DOPPLER` yet classifies as `Mamografia`, not as X-Ray, because
the mammography rule is scanned first. -/
theorem c5_contraexemplo :
    contem "RX" (maiuscula "MAMOGRAFIA RX DOPPLER") = true ∧
    contem "DOPPLER" (maiuscula "MAMOGRAFIA RX DOPPLER") = true ∧
    categorizar_modalidade (some "MAMOGRAFIA RX DOPPLER") = "Mamografia" ∧
    categorizar_modalidade (some "MAMOGRAFIA RX DOPPLER") ≠ "Raio X" := by
  refine ⟨by decide, by decide, by decide, by decide⟩

/-- Claim C5, witness: on `"eco rx doppler"` the tie between the `RX`
and `DOPPLER` rules resolves to `Raio X`. -/
theorem c5_testemunha :
    categorizar_modalidade (some "eco rx doppler") = "Raio X" :=
  c5_classificador_primeira_regra.2.2.2.2 "eco rx doppler" (by decide) (by decide)
    (by decide) (by decide) (by decide) (by decide)

theorem percentual_pdiv (L B : ℚ) :
    (B ≠ 0 → pmap (fun q => round2 (q * 100)) (pdiv L B) = PFloat.fin (round2 (L / B * 100))) ∧
    (B = 0 → pmap (fun q => round2 (q * 100)) (pdiv L B) ≠ PFloat.fin 0 ∧
      (L = 0 → pmap (fun q => round2 (q * 100)) (pdiv L B) = PFloat.nan) ∧
      (0 < L → pmap (fun q => round2 (q * 100)) (pdiv L B) = PFloat.inf) ∧
      (L < 0 → pmap (fun q => round2 (q * 100)) (pdiv L B) = PFloat.ninf)) := by
  constructor
  · intro hb
    simp [pdiv, pmap, hb]
  · intro hb
    subst hb
    refine ⟨?_, ?_, ?_, ?_⟩
    · rcases lt_trichotomy L 0 with h | h | h
      · simp [pdiv, pmap, h.ne, lt_asymm h]
      · simp [pdiv, pmap, h]
      · simp [pdiv, pmap, ne_of_gt h, h]
    · intro hl
      simp [pdiv, pmap, hl]
    · intro hl
      simp [pdiv, pmap, ne_of_gt hl, hl]
    · intro hl
      simp [pdiv, pmap, hl.ne, lt_asymm hl]

/-- Claim C4, amended: in every `resumo_mensal` row the profit
percentage is `net/gross × 100` rounded to two decimals with numpy's
round-half-to-even whenever the gross sum is nonzero; when the gross sum
is 0 it is NaN (net 0) or ±infinity (net nonzero), never the value 0. -/
theorem c4_percentual_lucro (registros : List ExamRecord) :
    ∀ row ∈ (processar_dados registros).resumo_mensal,
      (row.Receita_Bruta ≠ 0 →
        row.Percentual_Lucro =
          PFloat.fin (round2 (row.Receita_Liquida / row.Receita_Bruta * 100))) ∧
      (row.Receita_Bruta = 0 →
        row.Percentual_Lucro ≠ PFloat.fin 0 ∧
        (row.Receita_Liquida = 0 → row.Percentual_Lucro = PFloat.nan) ∧
        (0 < row.Receita_Liquida → row.Percentual_Lucro = PFloat.inf) ∧
        (row.Receita_Liquida < 0 → row.Percentual_Lucro = PFloat.ninf)) := by
  intro row hrow
  simp only [processar_dados, visaoResumo] at hrow
  rw [filtro_mes_notna] at hrow
  obtain ⟨kg, -, rfl⟩ := List.mem_map.1 hrow
  exact percentual_pdiv (somar (fun r => r.rdf) kg.2) (somar (fun r => r.valor) kg.2)

/-- Claim C4, counterexample: a month whose gross sum is 0 and net sum
is 10 gets profit percentage +infinity, not 0; and on the exact tie
`1/800×100 = 0.125` the code rounds to `0.12` where half-up rounding
(as `toFixed(2)` does) would give `0.13`. -/
theorem c4_contraexemplo :
    (processar_dados [regInfinito]).resumo_mensal.map
        (fun r => (r.Receita_Bruta, r.Percentual_Lucro)) = [(0, PFloat.inf)] ∧
    PFloat.inf ≠ PFloat.fin 0 ∧
    (processar_dados [regEmpate]).resumo_mensal.map (fun r => r.Percentual_Lucro) =
      [PFloat.fin (12/100)] ∧
    toFixed2 ((1 : ℚ) / 800 * 100) = 13/100 ∧
    (12 : ℚ)/100 ≠ 13/100 := by
  refine ⟨?_, by simp, ?_, ?_, by norm_num⟩
  · simp +decide only [processar_dados, visaoResumo, agrupar, chavesDe, ordenar, inserir, Ano_Mes,
      somar, mes_notna, chave3, categorizar_modalidade, buscar, contem, ocorre, comeca,
      maiuscula, regInfinito, List.map, List.dedup, List.foldl, List.filter]
    norm_num [pdiv, pmap, round2, arredEven, List.filter]
  · simp +decide only [processar_dados, visaoResumo, agrupar, chavesDe, ordenar, inserir, Ano_Mes,
      somar, mes_notna, chave3, categorizar_modalidade, buscar, contem, ocorre, comeca,
      maiuscula, regEmpate, List.map, List.dedup, List.foldl, List.filter]
    norm_num [pdiv, pmap, round2, arredEven, List.filter]
  · norm_num [toFixed2]

/-- Claim C4, witness: the tie month `2024-01` of the sample record
(gross 800, net 1) is in the summary and its percentage is the
half-to-even rounding of `1/800×100`. -/
theorem c4_testemunha :
    (RMRow.mk "2024-01" 1 800 1 (PFloat.fin (12/100))) ∈
        (processar_dados [regEmpate]).resumo_mensal ∧
    (RMRow.mk "2024-01" 1 800 1 (PFloat.fin (12/100))).Percentual_Lucro =
      PFloat.fin (round2
        ((RMRow.mk "2024-01" 1 800 1 (PFloat.fin (12/100))).Receita_Liquida /
          (RMRow.mk "2024-01" 1 800 1 (PFloat.fin (12/100))).Receita_Bruta * 100)) := by
  have hres : (processar_dados [regEmpate]).resumo_mensal =
      [RMRow.mk "2024-01" 1 800 1 (PFloat.fin (12/100))] := by
    simp +decide only [processar_dados, visaoResumo, agrupar, chavesDe, ordenar, inserir, Ano_Mes,
      somar, mes_notna, chave3, categorizar_modalidade, buscar, contem, ocorre, comeca,
      maiuscula, regEmpate, List.map, List.dedup, List.foldl, List.filter]
    norm_num [pdiv, pmap, round2, arredEven, List.filter]
  have hmem : (RMRow.mk "2024-01" 1 800 1 (PFloat.fin (12/100))) ∈
      (processar_dados [regEmpate]).resumo_mensal := by
    rw [hres]
    exact List.mem_singleton.2 rfl
  exact ⟨hmem, (c4_percentual_lucro [regEmpate] _ hmem).1 (by norm_num)⟩

/-- Claim C6, amended: `dist_convenio` and `dist_modalidade` are sorted
in descending order of count, and groups with equal count appear in
*descending* lexicographic order of the group key — the reverse of
groupby's ascending key order, as produced by pandas' descending sort
(ascending argsort, then reversal) — not in first-seen input order. -/
theorem c6_ordenacao_descendente (registros : List ExamRecord) :
    (processar_dados registros).dist_convenio.Pairwise
      (fun a b => b.Qtd < a.Qtd ∨ (a.Qtd = b.Qtd ∧ strLt b.Convenio a.Convenio = true)) ∧
    (processar_dados registros).dist_modalidade.Pairwise
      (fun a b => b.Qtd < a.Qtd ∨ (a.Qtd = b.Qtd ∧ strLt b.Modalidade a.Modalidade = true)) := by
  constructor
  · simp only [processar_dados, visaoDistConvenio, ordenarQtdDesc, agrupar, List.map_map]
    rw [List.pairwise_reverse]
    refine List.Pairwise.imp ?_
      (pairwise_ordenar_estavel (fun row => row.Qtd)
        (fun a b => strLt a.Convenio b.Convenio = true) _ ?_)
    · rintro a b (h | ⟨he, hq⟩)
      · exact Or.inl h
      · exact Or.inr ⟨he.symm, hq⟩
    · rw [List.pairwise_map]
      have hnd : List.Pairwise (fun a b => a ≠ b)
          (ordenar strLe (chavesDe (fun r => r.convenio) registros)) :=
        nodup_chaves strLe (fun r : ExamRecord => r.convenio) registros
      refine List.Pairwise.imp ?_
        ((pairwise_ordenar strLe strLe_total strLe_trans
            (chavesDe (fun r => r.convenio) registros)).and hnd)
      rintro a b ⟨hle, hne⟩
      exact strLt_de_le_ne a b hle hne
  · simp only [processar_dados, visaoDistModalidade, ordenarQtdDesc, agrupar, List.map_map]
    rw [List.pairwise_reverse]
    refine List.Pairwise.imp ?_
      (pairwise_ordenar_estavel (fun row => row.Qtd)
        (fun a b => strLt a.Modalidade b.Modalidade = true) _ ?_)
    · rintro a b (h | ⟨he, hq⟩)
      · exact Or.inl h
      · exact Or.inr ⟨he.symm, hq⟩
    · rw [List.pairwise_map]
      have hnd : List.Pairwise (fun a b => a ≠ b)
          (ordenar strLe (chavesDe (fun r => categorizar_modalidade r.exame) registros)) :=
        nodup_chaves strLe (fun r : ExamRecord => categorizar_modalidade r.exame) registros
      refine List.Pairwise.imp ?_
        ((pairwise_ordenar strLe strLe_total strLe_trans
            (chavesDe (fun r => categorizar_modalidade r.exame) registros)).and hnd)
      rintro a b ⟨hle, hne⟩
      exact strLt_de_le_ne a b hle hne

/-- Claim C6, counterexample: two payers `A` then `B`, first seen in
that order, each with one exam; the code lists `B` before `A` in
`dist_convenio`, so equal-count ties do not keep first-seen order. -/
theorem c6_contraexemplo :
    (processar_dados [regA, regB]).dist_convenio.map (fun r => (r.Convenio, r.Qtd)) =
      [("B", 1), ("A", 1)] ∧
    [regA, regB].map (fun r => r.convenio) = ["A", "B"] := by
  constructor
  · simp +decide only [processar_dados, visaoDistConvenio, agrupar, chavesDe, ordenar,
      ordenarQtdDesc, inserir, Ano_Mes, somar, mes_notna, regA, regB, List.map, List.dedup,
      List.foldl, List.filter, strLe, charsLe]
  · rfl

/-- Claim C2, failing-input evaluation: the record with an unparsable
date and exam `MAMOGRAFIA BILATERAL` appears in *every* month-keyed view
under the month string `"NaT"` (the `notna` filters are no-ops after
`astype(str)`), while it is also counted, as the claim says, in the
payer-only and modality-only views. -/
theorem c2_data_invalida_incluida :
    (processar_dados [regNaT]).resumo_mensal.map (fun r => (r.Mes, r.Qtd_Exames)) =
      [("NaT", 1)] ∧
    (processar_dados [regNaT]).dist_modalidade_mes = [⟨"NaT", "Mamografia", 1⟩] ∧
    (processar_dados [regNaT]).exames_mes_convenio_modalidade.map (fun r => (r.Mes, r.Qtd)) =
      [("NaT", 1)] ∧
    (processar_dados [regNaT]).dist_modalidade.map (fun r => (r.Modalidade, r.Qtd)) =
      [("Mamografia", 1)] ∧
    (processar_dados [regNaT]).dist_convenio.map (fun r => (r.Convenio, r.Qtd)) =
      [("PART", 1)] := by
  refine ⟨?_, ?_, ?_, ?_, ?_⟩ <;>
  · simp +decide only [processar_dados, visaoResumo, visaoFG, visaoDistConvenio,
      visaoDistModalidade, visaoDistModalidadeMes, agrupar, chavesDe, ordenar, ordenarQtdDesc,
      inserir, Ano_Mes, somar, mes_notna, chave3, categorizar_modalidade, buscar, contem,
      ocorre, comeca, maiuscula, regNaT, List.map, List.dedup, List.foldl, List.filter,
      lePar, leTripla, strLe, charsLe]

/-- Claim C3, failing-input evaluation: for a single record with an
unparsable date (and no gross value), the FineGrained view still carries
one row, keyed by the month string `"NaT"`, with count 1 and zero sums;
the number of records with a non-null month key is 0, so the claimed
identity `sum(count) = #records with non-null month` fails. -/
theorem c3_contagem_nat :
    (processar_dados [regSemData]).exames_mes_convenio_modalidade =
      [⟨"NaT", "PART", "Outros", 1, 0, 0⟩] ∧
    List.countP (fun r => (r.dataYM).isSome) [regSemData] = 0 ∧
    ((processar_dados [regSemData]).exames_mes_convenio_modalidade.map (fun r => r.Qtd)).sum =
      1 := by
  refine ⟨?_, by decide, ?_⟩ <;>
  · simp +decide only [processar_dados, visaoFG, agrupar, chavesDe, ordenar, inserir, Ano_Mes,
      somar, mes_notna, chave3, categorizar_modalidade, buscar, contem, ocorre, comeca,
      maiuscula, regSemData, List.map, List.dedup, List.foldl, List.filter, leTripla, lePar,
      strLe, charsLe]
    try norm_num [Option.getD]

/-- Claim C8, amended: the exams-per-month chart is a grouping pass over
the already-filtered FineGrained rows (for each month, the charted value
is the sum of `Qtd` over the filtered rows of that month), while the
payer chart and both modality charts are built from the snapshot's
unfiltered distribution views and do not depend on the filtered rows at
all. -/
theorem c8_graficos_por_filtro (registros : List ExamRecord) (conv mes : String)
    (mods : List String) (m : String) :
    procurar (atualizarGraficos (processar_dados registros)
        (aplicarFiltros conv mes mods
          (processar_dados registros).exames_mes_convenio_modalidade)).graficoExamesMes m =
      (((aplicarFiltros conv mes mods
            (processar_dados registros).exames_mes_convenio_modalidade).filter
          (fun x => decide (x.Mes = m))).map (fun x => x.Qtd)).sum ∧
    (atualizarGraficos (processar_dados registros)
        (aplicarFiltros conv mes mods
          (processar_dados registros).exames_mes_convenio_modalidade)).graficoConvenio =
      (atualizarGraficos (processar_dados registros)
        (processar_dados registros).exames_mes_convenio_modalidade).graficoConvenio ∧
    (atualizarGraficos (processar_dados registros)
        (aplicarFiltros conv mes mods
          (processar_dados registros).exames_mes_convenio_modalidade)).graficoModalidade =
      (atualizarGraficos (processar_dados registros)
        (processar_dados registros).exames_mes_convenio_modalidade).graficoModalidade ∧
    (atualizarGraficos (processar_dados registros)
        (aplicarFiltros conv mes mods
          (processar_dados registros).exames_mes_convenio_modalidade)).graficoModalidadeQtd =
      (atualizarGraficos (processar_dados registros)
        (processar_dados registros).exames_mes_convenio_modalidade).graficoModalidadeQtd := by
  refine ⟨?_, rfl, rfl, rfl⟩
  exact procurar_examesPorMes _ m

/-- Claim C8, counterexample: under the payer filter `A`, the modality
doughnut chart still shows `("Doppler", 1)` although no filtered
FineGrained row has modality Doppler; the chart is not a grouping of the
filtered rows. -/
theorem c8_contraexemplo :
    (atualizarGraficos (processar_dados [regA, regB])
        (aplicarFiltros "A" "" []
          (processar_dados [regA, regB]).exames_mes_convenio_modalidade)).graficoModalidade ≠
      examesPorModalidade
        (aplicarFiltros "A" "" []
          (processar_dados [regA, regB]).exames_mes_convenio_modalidade) ∧
    (aplicarFiltros "A" "" []
        (processar_dados [regA, regB]).exames_mes_convenio_modalidade).filter
      (fun x => decide (x.Modalidade = "Doppler")) = [] ∧
    ("Doppler", 1) ∈ (atualizarGraficos (processar_dados [regA, regB])
        (aplicarFiltros "A" "" []
          (processar_dados [regA, regB]).exames_mes_convenio_modalidade)).graficoModalidade := by
  refine ⟨?_, ?_, ?_⟩ <;>
  · simp +decide only [processar_dados, visaoFG, visaoDistModalidade, agrupar, chavesDe,
      ordenar, ordenarQtdDesc, inserir, Ano_Mes, somar, mes_notna, chave3,
      categorizar_modalidade, buscar, contem, ocorre, comeca, maiuscula, regA, regB,
      aplicarFiltros, atualizarGraficos, examesPorModalidade, atualizarAssoc, List.map,
      List.dedup, List.foldl, List.filter, leTripla, lePar, strLe, charsLe]

/-- Claim C10: the payer bar chart excludes `CORTESIA`; the modality
doughnut chart, modality bar chart, and modality cards exclude `Outros`;
these displays are built from the unfiltered distribution views of the
snapshot, so the active filter never changes them; yet the excluded
groups stay in `dist_convenio` / `dist_modalidade` whenever matching
records exist, and the KPI totals count every record. -/
theorem c10_exclusoes_graficos (registros : List ExamRecord) (conv mes : String)
    (mods : List String) :
    (∀ p ∈ (atualizarGraficos (processar_dados registros)
        (aplicarFiltros conv mes mods
          (processar_dados registros).exames_mes_convenio_modalidade)).graficoConvenio,
      p.1 ≠ "CORTESIA") ∧
    (∀ p ∈ (atualizarGraficos (processar_dados registros)
        (aplicarFiltros conv mes mods
          (processar_dados registros).exames_mes_convenio_modalidade)).graficoModalidade,
      p.1 ≠ "Outros") ∧
    (∀ p ∈ (atualizarGraficos (processar_dados registros)
        (aplicarFiltros conv mes mods
          (processar_dados registros).exames_mes_convenio_modalidade)).graficoModalidadeQtd,
      p.1 ≠ "Outros") ∧
    (∀ c ∈ atualizarCards (processar_dados registros), c.modalidade ≠ "Outros") ∧
    (atualizarGraficos (processar_dados registros)
        (aplicarFiltros conv mes mods
          (processar_dados registros).exames_mes_convenio_modalidade)).graficoConvenio =
      (atualizarGraficos (processar_dados registros)
        (processar_dados registros).exames_mes_convenio_modalidade).graficoConvenio ∧
    (atualizarGraficos (processar_dados registros)
        (aplicarFiltros conv mes mods
          (processar_dados registros).exames_mes_convenio_modalidade)).graficoModalidade =
      (atualizarGraficos (processar_dados registros)
        (processar_dados registros).exames_mes_convenio_modalidade).graficoModalidade ∧
    (atualizarGraficos (processar_dados registros)
        (aplicarFiltros conv mes mods
          (processar_dados registros).exames_mes_convenio_modalidade)).graficoModalidadeQtd =
      (atualizarGraficos (processar_dados registros)
        (processar_dados registros).exames_mes_convenio_modalidade).graficoModalidadeQtd ∧
    ((∃ r ∈ registros, r.convenio = "CORTESIA") →
      ∃ row ∈ (processar_dados registros).dist_convenio, row.Convenio = "CORTESIA") ∧
    ((∃ r ∈ registros, categorizar_modalidade r.exame = "Outros") →
      ∃ row ∈ (processar_dados registros).dist_modalidade, row.Modalidade = "Outros") ∧
    (atualizarKPIs (aplicarFiltros "" "" []
      (processar_dados registros).exames_mes_convenio_modalidade)).qtd =
        registros.length := by
  refine ⟨?_, ?_, ?_, ?_, rfl, rfl, rfl, ?_, ?_, ?_⟩
  · intro p hp
    simp only [atualizarGraficos, List.mem_map, List.mem_filter, decide_eq_true_eq] at hp
    obtain ⟨x, ⟨-, hx⟩, rfl⟩ := hp
    exact hx
  · intro p hp
    simp only [atualizarGraficos, List.mem_map, List.mem_filter, decide_eq_true_eq] at hp
    obtain ⟨x, ⟨-, hx⟩, rfl⟩ := hp
    exact hx
  · intro p hp
    simp only [atualizarGraficos, List.mem_map, List.mem_filter, decide_eq_true_eq] at hp
    obtain ⟨x, ⟨-, hx⟩, rfl⟩ := hp
    exact hx
  · intro c hc
    simp only [atualizarCards, List.mem_map, List.mem_filter, decide_eq_true_eq] at hc
    obtain ⟨x, ⟨-, hx⟩, rfl⟩ := hc
    exact hx
  · rintro ⟨r, hr, hc⟩
    simp only [processar_dados, visaoDistConvenio]
    exact ⟨_, (mem_ordenarQtdDesc _ _ _).2 (List.mem_map_of_mem _
      (chave_em_agrupar strLe (fun s : ExamRecord => s.convenio) registros r hr)), hc⟩
  · rintro ⟨r, hr, hc⟩
    simp only [processar_dados, visaoDistModalidade]
    exact ⟨_, (mem_ordenarQtdDesc _ _ _).2 (List.mem_map_of_mem _
      (chave_em_agrupar strLe
        (fun s : ExamRecord => categorizar_modalidade s.exame) registros r hr)), hc⟩
  · rw [aplicarFiltros_vazio]
    simp only [processar_dados, atualizarKPIs]
    exact fg_soma_qtd registros

/-- Claim C10, witness: with one `CORTESIA` record and one `Outros`
record, both groups are present in the distribution views and both are
counted by the unfiltered KPI total. -/
theorem c10_testemunha :
    (∃ row ∈ (processar_dados [regCortesia, regOutros]).dist_convenio,
      row.Convenio = "CORTESIA") ∧
    (∃ row ∈ (processar_dados [regCortesia, regOutros]).dist_modalidade,
      row.Modalidade = "Outros") ∧
    (atualizarKPIs (aplicarFiltros "" "" []
      (processar_dados [regCortesia, regOutros]).exames_mes_convenio_modalidade)).qtd = 2 := by
  obtain ⟨-, -, -, -, -, -, -, h8, h9, h10⟩ :=
    c10_exclusoes_graficos [regCortesia, regOutros] "" "" []
  exact ⟨h8 ⟨regCortesia, by decide, rfl⟩, h9 ⟨regOutros, by decide, by decide⟩, h10⟩
